import Mathlib

/-!
Verification development for the WebDAV incremental-backup engine of
`backup-incremental.ts` (wa-files-crawler).  Strings are modelled as
`List Char` (`Str`) so that every definition is executable and
kernel-reducible.  Environment-dependent primitives (MD5, `Math.random`
client nonces, `new Date(...)` parsing, network responses, filesystem
outcomes) are passed in as explicit parameters.
-/

abbrev Str := List Char

/-- Helper turning a Lean string literal into the `Str` representation. -/
def str (s : String) : Str := s.data

/-- One item returned by a folder listing (interface FileInfo, lines 52-60). -/
structure FileInfo where
  href : Str
  name : Str
  relativePath : Str
  size : Nat
  isFolder : Bool
  lastModified : Str
  lastModifiedTime : Int
deriving DecidableEq, Repr

/-- One row of the sync ledger (interface ManifestEntry, lines 62-69). -/
structure ManifestEntry where
  relativePath : Str
  size : Nat
  lastModified : Str
  lastModifiedTime : Int
  syncedAt : Str
  hash : Option Str
deriving DecidableEq, Repr

/-- The persisted ledger (interface Manifest, lines 71-77).  The JS object
`files: Record<string, ManifestEntry>` is modelled as an association list
with JS-object semantics: lookup finds the unique binding for a key, and
assignment replaces in place or appends a fresh binding. -/
structure Manifest where
  lastFullSync : Str
  lastIncrementalSync : Str
  totalFiles : Nat
  totalSize : Nat
  files : List (Str × ManifestEntry)
deriving DecidableEq, Repr

/-- Per-run counters (interface SyncStats, lines 79-90).  `duration` is a
float in the source; it is only ever displayed, so a Nat stand-in is used. -/
structure SyncStats where
  started : Str
  foldersScanned : Nat
  filesFound : Nat
  filesNew : Nat
  filesModified : Nat
  filesUnchanged : Nat
  filesDownloaded : Nat
  bytesDownloaded : Nat
  errors : List Str
  duration : Nat
deriving DecidableEq, Repr

/-- Lookup in a JS `Record` modelled as an association list:
`manifest.files[key]`. -/
def lookupAL : List (Str × ManifestEntry) → Str → Option ManifestEntry
  | [], _ => none
  | (k, v) :: rest, key => if k = key then some v else lookupAL rest key

/-- Assignment `manifest.files[key] = v` on a JS `Record`: replaces the
existing binding in place, or appends a new one. -/
def insertAL : List (Str × ManifestEntry) → Str → ManifestEntry → List (Str × ManifestEntry)
  | [], k, v => [(k, v)]
  | (k0, v0) :: rest, k, v =>
    if k0 = k then (k, v) :: rest else (k0, v0) :: insertAL rest k v

/-- Result of the classification rule (the string-literal union type of
`needsSync`, line 330). -/
inductive SyncStatus where
  | new
  | modified
  | unchanged
deriving DecidableEq, Repr

/-- Classification rule `needsSync(file, manifest)` (lines 330-343):
`new` when no manifest entry exists for the path; `modified` when the
remote `lastModifiedTime` is strictly greater than the stored one or the
remote `size` differs; `unchanged` otherwise. -/
def needsSync (file : FileInfo) (manifest : Manifest) : SyncStatus :=
  match lookupAL manifest.files file.relativePath with
  | none => .new
  | some existing =>
    if file.lastModifiedTime > existing.lastModifiedTime ∨ file.size ≠ existing.size then
      .modified
    else
      .unchanged

/-- The remote tree as seen through successive `propfind` calls.  A folder
either fails to list (`fail`, the exception caught at lines 378-382) or
yields the sequence of its entries; each entry carries its `FileInfo` and,
when it is a folder, the subtree reached by listing `item.relativePath`
(the listing chain is encoded by `nil`/`cons`). -/
inductive Remote where
  | fail (msg : Str)
  | nil
  | cons (fi : FileInfo) (sub : Remote) (rest : Remote)
deriving DecidableEq, Repr

/-- Extracts the error message of a failed listing, if any. -/
def Remote.failMsg? : Remote → Option Str
  | .fail m => some m
  | _ => none

/-- The error string pushed when scanning a folder fails (line 379). -/
def scanErr (folderPath : Str) (msg : Str) : Str :=
  str "Failed to scan folder " ++ folderPath ++ str ": " ++ msg

/-- The `for (const item of items)` loop of `scanFolder` (lines 356-377).
For folder entries the recursive `scanFolder(item.relativePath, ...)` call
(lines 351-358 / 378-382) is inlined: bump `foldersScanned`, record an
error when the sub-listing fails, otherwise loop over the sub-listing.
For file entries: bump `filesFound`, classify (`CONFIG.fullSync ? 'new' :
needsSync(item, manifest)`, line 361), count and push onto `filesToSync`
for `new`/`modified`. -/
def scanListing (fullSync : Bool) (m : Manifest) :
    Remote → SyncStats → List FileInfo → SyncStats × List FileInfo
  | .fail _, stats, acc => (stats, acc)
  | .nil, stats, acc => (stats, acc)
  | .cons fi sub rest, stats, acc =>
    if fi.isFolder then
      let statsA := { stats with foldersScanned := stats.foldersScanned + 1 }
      let next : SyncStats × List FileInfo :=
        match sub.failMsg? with
        | some msg =>
          ({ statsA with errors := statsA.errors ++ [scanErr fi.relativePath msg] }, acc)
        | none => scanListing fullSync m sub statsA acc
      scanListing fullSync m rest next.1 next.2
    else
      let stats1 := { stats with filesFound := stats.filesFound + 1 }
      match (if fullSync then SyncStatus.new else needsSync fi m) with
      | .new =>
        scanListing fullSync m rest
          { stats1 with filesNew := stats1.filesNew + 1 } (acc ++ [fi])
      | .modified =>
        scanListing fullSync m rest
          { stats1 with filesModified := stats1.filesModified + 1 } (acc ++ [fi])
      | .unchanged =>
        scanListing fullSync m rest
          { stats1 with filesUnchanged := stats1.filesUnchanged + 1 } acc

/-- Entry point of `scanFolder(folderPath, manifest, stats, filesToSync)`
(lines 345-383): bump `foldersScanned`, record an error when the listing
fails, otherwise run the item loop. -/
def scanFolderTop (fullSync : Bool) (m : Manifest) (folderPath : Str)
    (r : Remote) (stats : SyncStats) (acc : List FileInfo) :
    SyncStats × List FileInfo :=
  let statsA := { stats with foldersScanned := stats.foldersScanned + 1 }
  match r.failMsg? with
  | some msg =>
    ({ statsA with errors := statsA.errors ++ [scanErr folderPath msg] }, acc)
  | none => scanListing fullSync m r statsA acc

/-- All non-folder `FileInfo`s a scan discovers, in scan order (folder
entries are recursed into; failed sub-listings contribute nothing). -/
def filesOf : Remote → List FileInfo
  | .fail _ => []
  | .nil => []
  | .cons fi sub rest =>
    if fi.isFolder then filesOf sub ++ filesOf rest else fi :: filesOf rest

/-- Number of `foldersScanned` bumps the item loop performs (every folder
entry is entered, even when its listing then fails). -/
def foldersOf : Remote → Nat
  | .fail _ => 0
  | .nil => 0
  | .cons fi sub rest =>
    (if fi.isFolder then 1 + foldersOf sub else 0) + foldersOf rest

/-- The scan errors the item loop accumulates, in order. -/
def errListItems : Remote → List Str
  | .fail _ => []
  | .nil => []
  | .cons fi sub rest =>
    (if fi.isFolder then
      match sub.failMsg? with
      | some msg => [scanErr fi.relativePath msg]
      | none => errListItems sub
    else []) ++ errListItems rest

/-- The classification the scan applies to a discovered file (line 361). -/
def classify (fullSync : Bool) (m : Manifest) (fi : FileInfo) : SyncStatus :=
  if fullSync then .new else needsSync fi m

/-- Number of discovered files receiving a given classification. -/
def countC (fullSync : Bool) (m : Manifest) (s : SyncStatus) (r : Remote) : Nat :=
  ((filesOf r).filter (fun fi => classify fullSync m fi == s)).length

/-- Result of `downloadFile` (lines 213-296): in dry-run mode it returns
`true` before any network or filesystem operation (lines 214-216);
otherwise the outcome of the network exchange (`netOk`) decides. -/
def downloadFileResult (dryRun : Bool) (netOk : Bool) : Bool :=
  if dryRun then true else netOk

/-- The manifest entry written after a successful download (lines 405-411);
`syncedAt` is `new Date().toISOString()` at download time, passed in as
`now`. -/
def mkEntry (f : FileInfo) (now : Str) : ManifestEntry :=
  { relativePath := f.relativePath
    size := f.size
    lastModified := f.lastModified
    lastModifiedTime := f.lastModifiedTime
    syncedAt := now
    hash := none }

/-- The error string pushed when a download fails (line 413). -/
def dlErr (f : FileInfo) : Str := str "Failed to download: " ++ f.relativePath

/-- The download loop `syncFiles(filesToSync, manifest, stats)` (lines
385-422): on success update the manifest entry and the byte/file counters,
on failure append to the error list and leave the manifest untouched. -/
def syncFiles (dryRun : Bool) (netOk : FileInfo → Bool) (now : Str) :
    List FileInfo → Manifest → SyncStats → Manifest × SyncStats
  | [], m, stats => (m, stats)
  | f :: rest, m, stats =>
    if downloadFileResult dryRun (netOk f) then
      syncFiles dryRun netOk now rest
        { m with files := insertAL m.files f.relativePath (mkEntry f now) }
        { stats with
          filesDownloaded := stats.filesDownloaded + 1
          bytesDownloaded := stats.bytesDownloaded + f.size }
    else
      syncFiles dryRun netOk now rest m
        { stats with errors := stats.errors ++ [dlErr f] }

/-- Fresh per-run counters as `main` creates them (lines 493-504); the
`started` ISO timestamp is not claim-relevant and is left empty. -/
def initStats : SyncStats :=
  { started := []
    foldersScanned := 0
    filesFound := 0
    filesNew := 0
    filesModified := 0
    filesUnchanged := 0
    filesDownloaded := 0
    bytesDownloaded := 0
    errors := []
    duration := 0 }

/-- The scanning phase of a run: `scanFolder('', manifest, stats, [])`
(lines 521-522). -/
def runScan (fullSync : Bool) (m : Manifest) (r : Remote) :
    SyncStats × List FileInfo :=
  scanFolderTop fullSync m [] r initStats []

/-- Scan followed by the sync phase (lines 521-532): the manifest passed to
`syncFiles` is the same in-memory object the scan classified against. -/
def runSync (dryRun fullSync : Bool) (netOk : FileInfo → Bool) (now : Str)
    (m : Manifest) (r : Remote) : Manifest × SyncStats :=
  let scanned := runScan fullSync m r
  syncFiles dryRun netOk now scanned.2 m scanned.1

/-- The finalizing step of `main` (lines 534-541): recompute `totalFiles`
and `totalSize` from the entry set and stamp the run-mode timestamp. -/
def finalizeManifest (fullSync : Bool) (nowIso : Str) (m : Manifest) : Manifest :=
  let m1 := { m with
    totalFiles := m.files.length
    totalSize := (m.files.map (fun (kv : Str × ManifestEntry) => kv.2.size)).sum }
  if fullSync then { m1 with lastFullSync := nowIso }
  else { m1 with lastIncrementalSync := nowIso }

/-- Value of a hexadecimal digit, or 16 when the character is not one. -/
def hexVal (c : Char) : Nat :=
  if '0' ≤ c ∧ c ≤ '9' then c.toNat - '0'.toNat
  else if 'a' ≤ c ∧ c ≤ 'f' then c.toNat - 'a'.toNat + 10
  else if 'A' ≤ c ∧ c ≤ 'F' then c.toNat - 'A'.toNat + 10
  else 16

/-- Whether a character is a hexadecimal digit. -/
def isHex (c : Char) : Bool := hexVal c < 16

/-- Model of JS `decodeURIComponent` on its ASCII fragment: a `%XX`
escape with hexadecimal digits and value below 128 becomes the
corresponding character.  (The source's inputs stay in this fragment;
full `decodeURIComponent` additionally combines `%XX%YY...` UTF-8
sequences for values of 128 and above, and throws on malformed
escapes, which this model leaves untouched instead.) -/
def percentDecode : Str → Str
  | '%' :: a :: b :: rest =>
    if isHex a ∧ isHex b ∧ hexVal a * 16 + hexVal b < 128 then
      Char.ofNat (hexVal a * 16 + hexVal b) :: percentDecode rest
    else
      '%' :: percentDecode (a :: b :: rest)
  | c :: rest => c :: percentDecode rest
  | [] => []

/-- Whether a string contains an escape that `percentDecode` decodes,
following the same left-to-right scan. -/
def hasDecodableEscape : Str → Bool
  | '%' :: a :: b :: rest =>
    if isHex a ∧ isHex b ∧ hexVal a * 16 + hexVal b < 128 then true
    else hasDecodableEscape (a :: b :: rest)
  | _ :: rest => hasDecodableEscape rest
  | [] => false

/-- First-match semantics of a JS regex of shape
`/openTag([cls]+)closeTag/` (or `*` instead of `+` when `allowEmpty`):
scan positions left to right; where `openTag` matches, capture the
maximal run of characters satisfying `cls` and require `closeTag` right
after it (the character class excludes the first character of every
closing tag used here, so no shorter backtracked capture can succeed);
on failure resume the scan one position further. -/
def scanMatch (openTag : Str) (cls : Char → Bool) (allowEmpty : Bool)
    (closeTag : Str) : Str → Option Str
  | [] => none
  | c :: rest =>
    if openTag.isPrefixOf (c :: rest) then
      let after := (c :: rest).drop openTag.length
      let cap := after.takeWhile cls
      if (allowEmpty || !cap.isEmpty) && closeTag.isPrefixOf (after.drop cap.length) then
        some cap
      else
        scanMatch openTag cls allowEmpty closeTag rest
    else
      scanMatch openTag cls allowEmpty closeTag rest

/-- Model of JS `String.prototype.includes` for a non-empty needle. -/
def containsSub (needle : Str) : Str → Bool
  | [] => needle.isEmpty
  | c :: rest => needle.isPrefixOf (c :: rest) || containsSub needle rest

/-- Fuel-indexed worker for `splitOnSub` (structural recursion on the
fuel so the function reduces in the kernel; `fuel ≥ s.length` always
holds at the call site and each step consumes one character and one
unit of fuel). -/
def splitFuel (sep : Str) : Nat → Str → List Str
  | 0, _ => [[]]
  | _ + 1, [] => [[]]
  | fuel + 1, c :: rest =>
    if sep.isPrefixOf (c :: rest) ∧ sep ≠ [] then
      [] :: splitFuel sep fuel (rest.drop (sep.length - 1))
    else
      match splitFuel sep fuel rest with
      | [] => [[c]]
      | piece :: pieces => (c :: piece) :: pieces

/-- Model of JS `String.prototype.split` with a non-empty separator:
split on every non-overlapping occurrence, left to right. -/
def splitOnSub (sep s : Str) : List Str := splitFuel sep s.length s

/-- The anchored replacement
`href.replace(/^https:\/\/[^\x2f]+\/resources\//, '')` (line 190):
when the string starts with `https://`, a non-empty host free of `/`,
and the literal `/resources/`, drop that prefix; otherwise leave the
string unchanged. -/
def stripBaseUrl (s : Str) : Str :=
  if (str "https://").isPrefixOf s then
    let rest := s.drop 8
    let host := rest.takeWhile (fun c => c != '/')
    if !host.isEmpty && (str "/resources/").isPrefixOf (rest.drop host.length) then
      (rest.drop host.length).drop 11
    else s
  else s

/-- The replacement `.replace(/\/$/, '')` (line 190): drop one trailing
slash. -/
def stripTrailingSlash (s : Str) : Str :=
  if s.getLast? = some '/' then s.dropLast else s

/-- Model of Node `path.basename` for POSIX paths as used on decoded
hrefs (line 189): ignore trailing slashes and return the last path
segment. -/
def basenameChars (s : Str) : Str :=
  let t := s.reverse.dropWhile (fun c => c = '/')
  (t.takeWhile (fun c => c != '/')).reverse

/-- `parseInt` on the all-digit capture of `(\d+)`. -/
def digitsToNat (s : Str) : Nat :=
  s.foldl (fun n c => n * 10 + (c.toNat - '0'.toNat)) 0

/-- The `<d:href>` extraction regex of line 181. -/
def hrefTagOf (block : Str) : Option Str :=
  scanMatch (str "<d:href>") (fun c => c != '<') false (str "</d:href>") block

/-- The relative path as the source computes it before the final decode
(line 190): strip the resource-root prefix and one trailing slash from
the once-decoded href. -/
def onceDecodedRel (rawHref : Str) : Str :=
  stripTrailingSlash (stripBaseUrl (percentDecode rawHref))

/-- One iteration of the `parseMultistatus` response loop (lines
180-207), for a single `<d:response>` block.  `pd` models
`new Date(s).getTime()`.  Returns `none` when the block has no
parsable href or is the listed folder's self-reference. -/
def parseBlock (pd : Str → Int) (currentPath : Str) (block : Str) : Option FileInfo :=
  match hrefTagOf block with
  | none => none
  | some raw =>
    let href := percentDecode raw
    let name :=
      match scanMatch (str "<d:displayname>") (fun c => c != '<') true
          (str "</d:displayname>") block with
      | some n => n
      | none => basenameChars href
    let rel := onceDecodedRel raw
    if rel = currentPath ∨ (rel = [] ∧ currentPath = []) then none
    else
      let lastModified :=
        match scanMatch (str "<d:getlastmodified>") (fun c => c != '<') false
            (str "</d:getlastmodified>") block with
        | some lm => lm
        | none => []
      some
        { href := href
          name := name
          relativePath := percentDecode rel
          size :=
            match scanMatch (str "<d:getcontentlength>") Char.isDigit false
                (str "</d:getcontentlength>") block with
            | some ds => digitsToNat ds
            | none => 0
          isFolder := containsSub (str "<d:collection") block
          lastModified := lastModified
          lastModifiedTime := if lastModified ≠ [] then pd lastModified else 0 }

/-- The blocks the parser iterates over:
`xml.split('<d:response>').slice(1)` (line 178). -/
def blocksOf (xml : Str) : List Str :=
  (splitOnSub (str "<d:response>") xml).drop 1

/-- `parseMultistatus(xml, currentPath)` (lines 176-211). -/
def parseMultistatus (pd : Str → Int) (xml : Str) (currentPath : Str) : List FileInfo :=
  (blocksOf xml).filterMap (parseBlock pd currentPath)

/-- The fields of an HTTP response the engine inspects. -/
structure HttpResponse where
  statusCode : Nat
  wwwAuthenticate : Str
  body : Str
deriving DecidableEq, Repr

/-- The `realm="([^"]+)"` extraction of lines 143 and 263. -/
def realmOf (wwwAuth : Str) : Option Str :=
  scanMatch (str "realm=\"") (fun c => c != '"') false (str "\"") wwwAuth

/-- The `nonce="([^"]+)"` extraction of lines 144 and 264. -/
def nonceOf (wwwAuth : Str) : Option Str :=
  scanMatch (str "nonce=\"") (fun c => c != '"') false (str "\"") wwwAuth

/-- The fixed username of `CONFIG` (line 37). -/
def CONFIG_username : Str := str "technology@sbnewcomers.org"

/-- `createDigestAuth(realm, nonce, uri, method)` (lines 109-117).
`md5` models `createHash('md5').update(s).digest('hex')`; `password`
models `CONFIG.password`; `cnonce` models the freshly generated
`Math.random().toString(36).substring(2, 10)` client nonce. -/
def createDigestAuth (md5 : Str → Str) (password cnonce : Str)
    (realm nonce uri method : Str) : Str :=
  let ha1 := md5 (CONFIG_username ++ str ":" ++ realm ++ str ":" ++ password)
  let ha2 := md5 (method ++ str ":" ++ uri)
  let nc := str "00000001"
  let response :=
    md5 (ha1 ++ str ":" ++ nonce ++ str ":" ++ nc ++ str ":" ++ cnonce
      ++ str ":auth:" ++ ha2)
  str "Digest username=\"" ++ CONFIG_username ++ str "\", realm=\"" ++ realm
    ++ str "\", nonce=\"" ++ nonce ++ str "\", uri=\"" ++ uri
    ++ str "\", qop=auth, nc=" ++ nc ++ str ", cnonce=\"" ++ cnonce
    ++ str "\", response=\"" ++ response ++ str "\""

/-- How a `propfind` promise can end up. -/
inductive ReqOutcome where
  | resolved (items : List FileInfo)
  | rejected (msg : Str)
  | pending
deriving DecidableEq, Repr

/-- The `HTTP ${statusCode}` rejection message of line 156. -/
def httpErrMsg (status : Nat) : Str := str "HTTP " ++ Nat.toDigits 10 status

/-- The response handling of `propfind(folderPath)` (lines 140-168):
a non-401 first response resolves with the parse of its body
(lines 163-167); a 401 first response with a parsable challenge leads
to one authenticated retry, resolved on 207 and rejected with the
status code otherwise (lines 146-162); a 401 first response whose
challenge lacks a parsable realm or nonce falls through the
`if (realmMatch && nonceMatch)` with no else branch, settling the
promise neither way. -/
def propfindOutcome (pd : Str → Int) (folderPath : Str)
    (first authed : HttpResponse) : ReqOutcome :=
  if first.statusCode = 401 then
    match realmOf first.wwwAuthenticate, nonceOf first.wwwAuthenticate with
    | some _, some _ =>
      if authed.statusCode = 207 then
        .resolved (parseMultistatus pd authed.body folderPath)
      else
        .rejected (httpErrMsg authed.statusCode)
    | _, _ => .pending
  else
    .resolved (parseMultistatus pd first.body folderPath)

/-- What `downloadFile`'s `handleResponse` does with an unauthenticated
401 that is not a redirect (lines 261-281). -/
inductive DlStep where
  | retryWithAuth (header : Str)
  | resolveFalse
deriving DecidableEq, Repr

/-- The 401 branch of `downloadFile`'s `handleResponse` (lines 261-281):
with a parsable challenge, issue exactly one authenticated retry
carrying the digest header; otherwise resolve `false` immediately. -/
def download401Step (md5 : Str → Str) (password cnonce : Str)
    (urlPath : Str) (first : HttpResponse) : DlStep :=
  match realmOf first.wwwAuthenticate, nonceOf first.wwwAuthenticate with
  | some realm, some nonce =>
    .retryWithAuth (createDigestAuth md5 password cnonce realm nonce urlPath (str "GET"))
  | _, _ => .resolveFalse

/-- The filesystem writes the run can perform. -/
inductive FsEvent where
  | appendLog
  | writeManifest
  | mkdirBackupRoot
  | mkdirFor (destPath : Str)
  | writeFile (destPath : Str)
  | writeReport
deriving DecidableEq, Repr

/-- `saveManifest(manifest)` (lines 320-324): rewrite the manifest file
unless in dry-run mode. -/
def saveManifestEvents (dryRun : Bool) : List FsEvent :=
  if dryRun then [] else [.writeManifest]

/-- The filesystem writes of the `syncFiles` loop (lines 385-422): each
`downloadFile` call performs its network-determined writes (`netEvents`,
the mkdir/stream-write operations of lines 218-295) unless dry-run
short-circuits them (lines 214-216), and each failed download logs an
error (line 414). -/
def syncFilesEvents (dryRun : Bool) (netOk : FileInfo → Bool)
    (netEvents : FileInfo → List FsEvent) : List FileInfo → List FsEvent
  | [] => []
  | f :: rest =>
    (if dryRun then [] else netEvents f)
      ++ (if downloadFileResult dryRun (netOk f) then [] else [FsEvent.appendLog])
      ++ syncFilesEvents dryRun netOk netEvents rest

/-- The filesystem writes of one whole `main()` run (lines 473-573), in
order: the three startup `log` calls (506-508, each appending to the
log file), creation of the backup root when absent (511-513), the
manifest-load warning when the manifest was corrupt (307), the
"Manifest loaded" and "Scanning" logs (517, 520), one log per scan
error (380), the "Scan complete" log (524), the "Syncing"/"No files"
log (528/531), the sync-phase writes, `saveManifest` (542), the report
write unless dry-run (549-551), and the final log (568). -/
def mainEvents (dryRun fullSync backupDirExists loadWarned : Bool)
    (netOk : FileInfo → Bool) (netEvents : FileInfo → List FsEvent)
    (m : Manifest) (r : Remote) : List FsEvent :=
  [FsEvent.appendLog, FsEvent.appendLog, FsEvent.appendLog]
    ++ (if backupDirExists then [] else [FsEvent.mkdirBackupRoot])
    ++ (if loadWarned then [FsEvent.appendLog] else [])
    ++ [FsEvent.appendLog]
    ++ [FsEvent.appendLog]
    ++ ((runScan fullSync m r).1.errors).map (fun _ => FsEvent.appendLog)
    ++ [FsEvent.appendLog]
    ++ [FsEvent.appendLog]
    ++ syncFilesEvents dryRun netOk netEvents (runScan fullSync m r).2
    ++ saveManifestEvents dryRun
    ++ (if dryRun then [] else [FsEvent.writeReport])
    ++ [FsEvent.appendLog]

/-- The catch-all equation of `percentDecode`: a head that does not open
a three-character escape is copied through. -/
theorem percentDecode_catchall (c : Char) (rest : Str)
    (h1 : ∀ (a b : Char) (r : List Char), c = '%' → rest = a :: b :: r → False) :
    percentDecode (c :: rest) = c :: percentDecode rest := by
  rw [percentDecode.eq_def]
  split
  · next a b r heq =>
      rw [List.cons.injEq] at heq
      exact absurd heq.2 (by intro h2; exact h1 a b r heq.1 h2)
  · next c2 r heq => rw [List.cons.injEq] at heq; rw [heq.1, heq.2]
  · next heq => exact absurd heq (by simp)

/-- The catch-all equation of `hasDecodableEscape`. -/
theorem hasDecodableEscape_catchall (c : Char) (rest : Str)
    (h1 : ∀ (a b : Char) (r : List Char), c = '%' → rest = a :: b :: r → False) :
    hasDecodableEscape (c :: rest) = hasDecodableEscape rest := by
  rw [hasDecodableEscape.eq_def]
  split
  · next a b r heq =>
      rw [List.cons.injEq] at heq
      exact absurd heq.2 (by intro h2; exact h1 a b r heq.1 h2)
  · next c2 r heq => rw [List.cons.injEq] at heq; rw [heq.2]
  · next heq => exact absurd heq (by simp)

/-- A string without decodable escapes decodes to itself. -/
theorem percentDecode_of_no_escape : ∀ s : Str, hasDecodableEscape s = false → percentDecode s = s := by
  intro s
  induction s using percentDecode.induct with
  | case1 a b rest hx ih => intro h; simp [hasDecodableEscape, hx] at h
  | case2 a b rest hx ih =>
    intro h
    simp only [hasDecodableEscape, if_neg hx] at h
    simp [percentDecode, hx, ih h]
  | case3 c rest h1 ih =>
    intro h
    rw [hasDecodableEscape_catchall c rest h1] at h
    rw [percentDecode_catchall c rest h1, ih h]
  | case4 => intro h; simp [percentDecode]

/-- Decoding never lengthens a string. -/
theorem percentDecode_length_le : ∀ s : Str, (percentDecode s).length ≤ s.length := by
  intro s
  induction s using percentDecode.induct with
  | case1 a b r hx ih => simp only [percentDecode, if_pos hx, List.length_cons]; omega
  | case2 a b r hx ih => simp only [percentDecode, if_neg hx, List.length_cons] at ih ⊢; omega
  | case3 c r h1 ih => rw [percentDecode_catchall c r h1]; simp only [List.length_cons]; omega
  | case4 => simp [percentDecode]

/-- Decoding a string containing a decodable escape strictly shortens it. -/
theorem percentDecode_length_lt : ∀ s : Str, hasDecodableEscape s = true → (percentDecode s).length < s.length := by
  intro s
  induction s using percentDecode.induct with
  | case1 a b rest hx ih =>
    intro h
    have hle := percentDecode_length_le rest
    simp only [percentDecode, if_pos hx, List.length_cons]
    omega
  | case2 a b rest hx ih =>
    intro h
    simp only [hasDecodableEscape, if_neg hx] at h
    simp only [percentDecode, if_neg hx, List.length_cons] at ih ⊢
    have := ih h
    omega
  | case3 c rest h1 ih =>
    intro h
    rw [hasDecodableEscape_catchall c rest h1] at h
    rw [percentDecode_catchall c rest h1]
    simp only [List.length_cons]
    have := ih h
    omega
  | case4 => intro h; simp [hasDecodableEscape] at h

/-- A string containing a decodable escape is changed by decoding. -/
theorem percentDecode_ne_of_escape (s : Str) (h : hasDecodableEscape s = true) :
    percentDecode s ≠ s := by
  intro heq
  have := percentDecode_length_lt s h
  rw [heq] at this
  omega

def errListTop (folderPath : Str) (r : Remote) : List Str :=
  match r.failMsg? with
  | some msg => [scanErr folderPath msg]
  | none => errListItems r

theorem Remote.failMsg_eq_some {r : Remote} {msg : Str} (h : r.failMsg? = some msg) :
    r = .fail msg := by
  cases r with
  | fail m => simp [Remote.failMsg?] at h; rw [h]
  | nil => simp [Remote.failMsg?] at h
  | cons fi sub rest => simp [Remote.failMsg?] at h

theorem scanListing_snd (fullSync : Bool) (m : Manifest) :
    ∀ (r : Remote) (stats : SyncStats) (acc : List FileInfo),
      (scanListing fullSync m r stats acc).2
        = acc ++ (filesOf r).filter (fun fi => classify fullSync m fi != SyncStatus.unchanged) := by
  intro r
  induction r with
  | fail msg => intro stats acc; simp [scanListing, filesOf]
  | nil => intro stats acc; simp [scanListing, filesOf]
  | cons fi sub rest ihs ihr =>
    intro stats acc
    by_cases hf : fi.isFolder
    · cases hsub : sub.failMsg? with
      | some msg =>
        have := Remote.failMsg_eq_some hsub
        subst this
        simp [scanListing, hf, Remote.failMsg?, filesOf, ihr]
      | none =>
        simp only [scanListing, if_pos hf, hsub]
        simp [ihr, ihs, filesOf, hf, List.filter_append, List.append_assoc]
    · simp only [scanListing, if_neg hf]
      split
      · next heq => simp [ihr, filesOf, hf, classify, heq, List.append_assoc]
      · next heq => simp [ihr, filesOf, hf, classify, heq, List.append_assoc]
      · next heq => simp [ihr, filesOf, hf, classify, heq]

theorem scanListing_errors (fullSync : Bool) (m : Manifest) :
    ∀ (r : Remote) (stats : SyncStats) (acc : List FileInfo),
      (scanListing fullSync m r stats acc).1.errors = stats.errors ++ errListItems r := by
  intro r
  induction r with
  | fail msg => intro stats acc; simp [scanListing, errListItems]
  | nil => intro stats acc; simp [scanListing, errListItems]
  | cons fi sub rest ihs ihr =>
    intro stats acc
    by_cases hf : fi.isFolder
    · cases hsub : sub.failMsg? with
      | some msg =>
        have := Remote.failMsg_eq_some hsub
        subst this
        simp [scanListing, hf, Remote.failMsg?, errListItems, ihr, List.append_assoc]
      | none =>
        simp only [scanListing, if_pos hf, hsub]
        simp [ihr, ihs, errListItems, hf, hsub, List.append_assoc]
    · simp only [scanListing, if_neg hf]
      split
      · next heq => simp [ihr, errListItems, hf]
      · next heq => simp [ihr, errListItems, hf]
      · next heq => simp [ihr, errListItems, hf]

theorem scanListing_filesDownloaded (fullSync : Bool) (m : Manifest) :
    ∀ (r : Remote) (stats : SyncStats) (acc : List FileInfo),
      (scanListing fullSync m r stats acc).1.filesDownloaded = stats.filesDownloaded := by
  intro r
  induction r with
  | fail msg => intro stats acc; simp [scanListing]
  | nil => intro stats acc; simp [scanListing]
  | cons fi sub rest ihs ihr =>
    intro stats acc
    by_cases hf : fi.isFolder
    · cases hsub : sub.failMsg? with
      | some msg =>
        have := Remote.failMsg_eq_some hsub
        subst this
        simp [scanListing, hf, Remote.failMsg?, ihr]
      | none =>
        simp only [scanListing, if_pos hf, hsub]
        simp [ihr, ihs]
    · simp only [scanListing, if_neg hf]
      split
      · next heq => simp [ihr]
      · next heq => simp [ihr]
      · next heq => simp [ihr]

theorem scanListing_filesNew (fullSync : Bool) (m : Manifest) :
    ∀ (r : Remote) (stats : SyncStats) (acc : List FileInfo),
      (scanListing fullSync m r stats acc).1.filesNew
        = stats.filesNew + countC fullSync m SyncStatus.new r := by
  intro r
  induction r with
  | fail msg => intro stats acc; simp [scanListing, countC, filesOf]
  | nil => intro stats acc; simp [scanListing, countC, filesOf]
  | cons fi sub rest ihs ihr =>
    intro stats acc
    by_cases hf : fi.isFolder
    · cases hsub : sub.failMsg? with
      | some msg =>
        have := Remote.failMsg_eq_some hsub
        subst this
        simp [scanListing, hf, Remote.failMsg?, ihr, countC, filesOf]
      | none =>
        simp only [scanListing, if_pos hf, hsub]
        simp [ihr, ihs, countC, filesOf, hf, List.filter_append, Nat.add_assoc]
    · simp only [scanListing, if_neg hf]
      split
      · next heq =>
        simp [ihr, countC, filesOf, hf, classify, heq, Nat.add_assoc, Nat.add_comm,
          Nat.add_left_comm]
      · next heq => simp [ihr, countC, filesOf, hf, classify, heq]
      · next heq => simp [ihr, countC, filesOf, hf, classify, heq]

theorem runScan_snd (fullSync : Bool) (m : Manifest) (r : Remote) :
    (runScan fullSync m r).2
      = (filesOf r).filter (fun fi => classify fullSync m fi != SyncStatus.unchanged) := by
  unfold runScan scanFolderTop
  cases hsub : r.failMsg? with
  | some msg =>
    have := Remote.failMsg_eq_some hsub
    subst this
    simp [Remote.failMsg?, filesOf]
  | none => simp [hsub, scanListing_snd]

theorem runScan_errors (fullSync : Bool) (m : Manifest) (r : Remote) :
    (runScan fullSync m r).1.errors = errListTop [] r := by
  unfold runScan scanFolderTop errListTop
  cases hsub : r.failMsg? with
  | some msg => simp [hsub, initStats]
  | none => simp [hsub, scanListing_errors, initStats]

theorem runScan_filesDownloaded (fullSync : Bool) (m : Manifest) (r : Remote) :
    (runScan fullSync m r).1.filesDownloaded = 0 := by
  unfold runScan scanFolderTop
  cases hsub : r.failMsg? with
  | some msg => simp [hsub, initStats]
  | none => simp [hsub, scanListing_filesDownloaded, initStats]

theorem runScan_filesNew (fullSync : Bool) (m : Manifest) (r : Remote) :
    (runScan fullSync m r).1.filesNew = countC fullSync m SyncStatus.new r := by
  unfold runScan scanFolderTop
  cases hsub : r.failMsg? with
  | some msg =>
    have := Remote.failMsg_eq_some hsub
    subst this
    simp [Remote.failMsg?, initStats, countC, filesOf]
  | none => simp [hsub, scanListing_filesNew, initStats]

theorem lookupAL_insertAL (l : List (Str × ManifestEntry)) (k : Str) (v : ManifestEntry) (p : Str) :
    lookupAL (insertAL l k v) p = if k = p then some v else lookupAL l p := by
  induction l with
  | nil => simp [insertAL, lookupAL]
  | cons kv rest ih =>
    obtain ⟨k0, v0⟩ := kv
    by_cases h : k0 = k
    · subst h
      by_cases hp : k0 = p <;> simp [insertAL, lookupAL, hp]
    · by_cases hp : k0 = p
      · subst hp
        have : ¬ k = k0 := fun hh => h hh.symm
        simp [insertAL, lookupAL, h, this]
      · simp [insertAL, lookupAL, h, hp, ih]

theorem syncFiles_errors (dr : Bool) (ok : FileInfo → Bool) (now : Str) :
    ∀ (L : List FileInfo) (m : Manifest) (stats : SyncStats),
      (syncFiles dr ok now L m stats).2.errors
        = stats.errors ++ (L.filter (fun f => !downloadFileResult dr (ok f))).map dlErr := by
  intro L
  induction L with
  | nil => intro m stats; simp [syncFiles]
  | cons f rest ih =>
    intro m stats
    by_cases hd : downloadFileResult dr (ok f)
    · simp [syncFiles, hd, ih]
    · simp only [Bool.not_eq_true] at hd
      simp [syncFiles, hd, ih, List.append_assoc]

theorem syncFiles_filesDownloaded (dr : Bool) (ok : FileInfo → Bool) (now : Str) :
    ∀ (L : List FileInfo) (m : Manifest) (stats : SyncStats),
      (syncFiles dr ok now L m stats).2.filesDownloaded
        = stats.filesDownloaded + (L.filter (fun f => downloadFileResult dr (ok f))).length := by
  intro L
  induction L with
  | nil => intro m stats; simp [syncFiles]
  | cons f rest ih =>
    intro m stats
    by_cases hd : downloadFileResult dr (ok f)
    · simp [syncFiles, hd, ih, Nat.add_assoc, Nat.add_comm, Nat.add_left_comm]
    · simp only [Bool.not_eq_true] at hd
      simp [syncFiles, hd, ih]

theorem syncFiles_lookup (dr : Bool) (ok : FileInfo → Bool) (now : Str) (p : Str) :
    ∀ (L : List FileInfo) (m : Manifest) (stats : SyncStats),
      lookupAL (syncFiles dr ok now L m stats).1.files p
        = L.foldl
            (fun acc f =>
              if downloadFileResult dr (ok f) = true ∧ f.relativePath = p then
                some (mkEntry f now)
              else acc)
            (lookupAL m.files p) := by
  intro L
  induction L with
  | nil => intro m stats; simp [syncFiles]
  | cons f rest ih =>
    intro m stats
    by_cases hd : downloadFileResult dr (ok f)
    · simp only [syncFiles, hd, if_pos, List.foldl_cons]
      rw [ih]
      congr 1
      rw [lookupAL_insertAL]
      by_cases hp : f.relativePath = p
      · simp [hp, hd]
      · have hno : ¬ (downloadFileResult dr (ok f) = true ∧ f.relativePath = p) :=
          fun hh => hp hh.2
        simp [hp, hno]
    · simp only [Bool.not_eq_true] at hd
      simp [syncFiles, hd, ih]

theorem foldl_entry_none (dr : Bool) (ok : FileInfo → Bool) (now : Str) (p : Str) :
    ∀ (L : List FileInfo) (init : Option ManifestEntry),
      (∀ g ∈ L, ¬ (downloadFileResult dr (ok g) = true ∧ g.relativePath = p)) →
      L.foldl
        (fun acc f =>
          if downloadFileResult dr (ok f) = true ∧ f.relativePath = p then
            some (mkEntry f now)
          else acc)
        init = init := by
  intro L
  induction L with
  | nil => intro init h; simp
  | cons g rest ih =>
    intro init h
    have hg := h g (by simp)
    simp only [List.foldl_cons, if_neg hg]
    exact ih init (fun x hx => h x (by simp [hx]))

theorem foldl_entry_const (dr : Bool) (ok : FileInfo → Bool) (now : Str) (p : Str)
    (v : Option ManifestEntry) :
    ∀ (L : List FileInfo) (init : Option ManifestEntry),
      init = v →
      (∀ g ∈ L, (downloadFileResult dr (ok g) = true ∧ g.relativePath = p) →
        some (mkEntry g now) = v) →
      L.foldl
        (fun acc f =>
          if downloadFileResult dr (ok f) = true ∧ f.relativePath = p then
            some (mkEntry f now)
          else acc)
        init = v := by
  intro L
  induction L with
  | nil => intro init h _; simpa using h
  | cons g rest ih =>
    intro init h hall
    simp only [List.foldl_cons]
    by_cases hg : downloadFileResult dr (ok g) = true ∧ g.relativePath = p
    · rw [if_pos hg]
      exact ih _ (hall g (by simp) hg) (fun x hx => hall x (by simp [hx]))
    · rw [if_neg hg]
      exact ih _ h (fun x hx => hall x (by simp [hx]))

theorem foldl_entry_mem (dr : Bool) (ok : FileInfo → Bool) (now : Str) (p : Str)
    (f : FileInfo) :
    ∀ (L : List FileInfo) (init : Option ManifestEntry),
      f ∈ L →
      (downloadFileResult dr (ok f) = true ∧ f.relativePath = p) →
      (∀ g ∈ L, (downloadFileResult dr (ok g) = true ∧ g.relativePath = p) →
        mkEntry g now = mkEntry f now) →
      L.foldl
        (fun acc g =>
          if downloadFileResult dr (ok g) = true ∧ g.relativePath = p then
            some (mkEntry g now)
          else acc)
        init = some (mkEntry f now) := by
  intro L
  induction L with
  | nil => intro init hmem; simp at hmem
  | cons g rest ih =>
    intro init hmem hf hall
    simp only [List.foldl_cons]
    by_cases hg : downloadFileResult dr (ok g) = true ∧ g.relativePath = p
    · rw [if_pos hg]
      refine foldl_entry_const dr ok now p _ rest _ ?_ ?_
      · rw [hall g (by simp) hg]
      · intro x hx hxp
        rw [hall x (by simp [hx]) hxp]
    · rw [if_neg hg]
      rcases List.mem_cons.mp hmem with hfg | hfr
      · exact absurd hf (by rw [hfg]; exact hg)
      · exact ih init hfr hf (fun x hx => hall x (by simp [hx]))

theorem needsSync_congr (f : FileInfo) (m1 m2 : Manifest)
    (h : lookupAL m1.files f.relativePath = lookupAL m2.files f.relativePath) :
    needsSync f m1 = needsSync f m2 := by
  unfold needsSync
  rw [h]

theorem finalizeManifest_files (fullSync : Bool) (nowIso : Str) (m : Manifest) :
    (finalizeManifest fullSync nowIso m).files = m.files := by
  unfold finalizeManifest
  split <;> rfl

theorem foldl_entry_isSome (dr : Bool) (ok : FileInfo → Bool) (now : Str) (p : Str) :
    ∀ (L : List FileInfo) (init : Option ManifestEntry),
      init.isSome = true →
      (L.foldl
        (fun acc f =>
          if downloadFileResult dr (ok f) = true ∧ f.relativePath = p then
            some (mkEntry f now)
          else acc)
        init).isSome = true := by
  intro L
  induction L with
  | nil => intro init h; simpa using h
  | cons g rest ih =>
    intro init h
    simp only [List.foldl_cons]
    by_cases hg : downloadFileResult dr (ok g) = true ∧ g.relativePath = p
    · rw [if_pos hg]; exact ih _ (by simp)
    · rw [if_neg hg]; exact ih _ h

theorem parseBlock_spec (pd : Str → Int) (cur block : Str) (fi : FileInfo)
    (h : parseBlock pd cur block = some fi) :
    ∃ raw, hrefTagOf block = some raw ∧ onceDecodedRel raw ≠ cur
      ∧ fi.relativePath = percentDecode (onceDecodedRel raw) := by
  unfold parseBlock at h
  cases hhref : hrefTagOf block with
  | none => rw [hhref] at h; simp at h
  | some raw =>
    rw [hhref] at h
    simp only at h
    by_cases hskip : (onceDecodedRel raw = cur ∨ (onceDecodedRel raw = [] ∧ cur = []))
    · rw [if_pos hskip] at h
      cases h
    · rw [if_neg hskip] at h
      cases h
      exact ⟨raw, rfl, fun hc => hskip (Or.inl hc), rfl⟩

theorem needsSync_none (file : FileInfo) (m : Manifest)
    (h : lookupAL m.files file.relativePath = none) : needsSync file m = SyncStatus.new := by
  unfold needsSync
  rw [h]

theorem needsSync_some (file : FileInfo) (e : ManifestEntry) (m : Manifest)
    (h : lookupAL m.files file.relativePath = some e) :
    needsSync file m =
      if file.lastModifiedTime > e.lastModifiedTime ∨ file.size ≠ e.size then
        SyncStatus.modified
      else SyncStatus.unchanged := by
  unfold needsSync
  rw [h]

/-- C1: `needsSync` returns `new` exactly when the manifest has no entry
for the file's relative path; `modified` exactly when an entry exists and
the remote `lastModifiedTime` is strictly greater or the size differs;
`unchanged` exactly otherwise; a file whose stored size and modification
time equal the remote values is `unchanged`; and no `unchanged` file is
ever appended to the to-sync list by an incremental scan. -/
theorem C1_needsSync_classification (file : FileInfo) (m : Manifest) (r : Remote) :
    (needsSync file m = SyncStatus.new ↔ lookupAL m.files file.relativePath = none)
    ∧ (needsSync file m = SyncStatus.modified ↔
        ∃ e, lookupAL m.files file.relativePath = some e
          ∧ (e.lastModifiedTime < file.lastModifiedTime ∨ file.size ≠ e.size))
    ∧ (needsSync file m = SyncStatus.unchanged ↔
        ∃ e, lookupAL m.files file.relativePath = some e
          ∧ ¬ e.lastModifiedTime < file.lastModifiedTime ∧ file.size = e.size)
    ∧ (∀ e, lookupAL m.files file.relativePath = some e → e.size = file.size →
        e.lastModifiedTime = file.lastModifiedTime → needsSync file m = SyncStatus.unchanged)
    ∧ (∀ f ∈ (runScan false m r).2, needsSync f m ≠ SyncStatus.unchanged) := by
  refine ⟨?_, ?_, ?_, ?_, ?_⟩
  · cases hlk : lookupAL m.files file.relativePath with
    | none => rw [needsSync_none file m hlk]; simp [hlk]
    | some e =>
      rw [needsSync_some file e m hlk]
      split_ifs <;> simp [hlk]
  · cases hlk : lookupAL m.files file.relativePath with
    | none => rw [needsSync_none file m hlk]; simp [hlk]
    | some e =>
      rw [needsSync_some file e m hlk]
      split_ifs with hc
      · simp only [gt_iff_lt] at hc
        simp [hlk, hc]
      · push_neg at hc
        constructor
        · intro h; cases h
        · rintro ⟨e2, he2, hor⟩
          rw [Option.some.injEq] at he2
          subst he2
          rcases hor with hlt | hne
          · exact absurd hlt (not_lt.mpr hc.1)
          · exact absurd hc.2 (by simpa using hne)
  · cases hlk : lookupAL m.files file.relativePath with
    | none => rw [needsSync_none file m hlk]; simp [hlk]
    | some e =>
      rw [needsSync_some file e m hlk]
      split_ifs with hc
      · constructor
        · intro h; cases h
        · rintro ⟨e2, he2, hnlt, hsz⟩
          rw [Option.some.injEq] at he2
          subst he2
          rcases hc with hlt | hne
          · exact absurd hlt hnlt
          · exact hne hsz
      · push_neg at hc
        constructor
        · intro _; exact ⟨e, rfl, not_lt.mpr hc.1, hc.2⟩
        · intro _; rfl
  · intro e hlk hsz hlt
    rw [needsSync_some file e m hlk]
    simp [hsz.symm, hlt.symm, lt_irrefl]
  · intro f hf
    rw [runScan_snd] at hf
    have hp := (List.mem_filter.mp hf).2
    intro hu
    simp [classify, hu] at hp

/-- C2: if an incremental run (not dry-run, not full-sync) ends with an
empty error list, then a second incremental run over the identical remote
listings classifies every discovered file as `unchanged`, puts nothing on
the to-sync list, and downloads zero files.  Distinctness of the
discovered relative paths is the spec's RemoteEntry invariant
("`relativePath` uniquely identifies the item within the tree"). -/
theorem C2_second_run_idempotent (r : Remote) (m : Manifest)
    (netOk netOk2 : FileInfo → Bool) (now now2 : Str)
    (herr : (runSync false false netOk now m r).2.errors = [])
    (hnodup : ((filesOf r).map (fun fi => fi.relativePath)).Nodup) :
    (∀ f ∈ filesOf r,
      needsSync f (runSync false false netOk now m r).1 = SyncStatus.unchanged)
    ∧ (runScan false (runSync false false netOk now m r).1 r).2 = []
    ∧ (runSync false false netOk2 now2 (runSync false false netOk now m r).1 r).2.filesDownloaded
        = 0 := by
  have hsync :
      runSync false false netOk now m r
        = syncFiles false netOk now (runScan false m r).2 m (runScan false m r).1 := rfl
  -- every file on the first to-sync list was downloaded successfully
  have hok : ∀ f ∈ (runScan false m r).2, downloadFileResult false (netOk f) = true := by
    intro f hf
    rw [hsync, syncFiles_errors] at herr
    have h2 := (List.append_eq_nil.mp herr).2
    have h3 := List.map_eq_nil_iff.mp h2
    by_contra hnf
    have : f ∈ List.filter (fun f => !downloadFileResult false (netOk f)) (runScan false m r).2 := by
      rw [List.mem_filter]
      exact ⟨hf, by simp [Bool.not_eq_true] at hnf ⊢; exact hnf⟩
    rw [h3] at this
    cases this
  have hinj : ∀ x ∈ filesOf r, ∀ y ∈ filesOf r, x.relativePath = y.relativePath → x = y := by
    intro x hx y hy hxy
    exact List.inj_on_of_nodup_map hnodup hx hy hxy
  have hsub : ∀ g ∈ (runScan false m r).2, g ∈ filesOf r := by
    intro g hg
    rw [runScan_snd] at hg
    exact (List.mem_filter.mp hg).1
  -- the manifest after the first run classifies every discovered file unchanged
  have hkey : ∀ f ∈ filesOf r,
      needsSync f (runSync false false netOk now m r).1 = SyncStatus.unchanged := by
    intro f hf
    by_cases hu : needsSync f m = SyncStatus.unchanged
    · -- the file was not on the to-sync list; its manifest entry is untouched
      have hnot : ∀ g ∈ (runScan false m r).2,
          ¬ (downloadFileResult false (netOk g) = true ∧ g.relativePath = f.relativePath) := by
        rintro g hg ⟨-, hgp⟩
        have hgf : g = f := hinj g (hsub g hg) f hf hgp
        subst hgf
        rw [runScan_snd, List.mem_filter] at hg
        simp [classify, hu] at hg
      have hlk : lookupAL (runSync false false netOk now m r).1.files f.relativePath
          = lookupAL m.files f.relativePath := by
        rw [hsync, syncFiles_lookup]
        exact foldl_entry_none false netOk now f.relativePath _ _ hnot
      rw [needsSync_congr f _ m hlk]
      exact hu
    · -- the file was synced; its manifest entry now matches the remote values
      have hmem : f ∈ (runScan false m r).2 := by
        rw [runScan_snd, List.mem_filter]
        exact ⟨hf, by simp [classify, hu]⟩
      have hlk : lookupAL (runSync false false netOk now m r).1.files f.relativePath
          = some (mkEntry f now) := by
        rw [hsync, syncFiles_lookup]
        refine foldl_entry_mem false netOk now f.relativePath f _ _ hmem
          ⟨hok f hmem, rfl⟩ ?_
        rintro g hg ⟨-, hgp⟩
        rw [hinj g (hsub g hg) f hf hgp]
      rw [needsSync_some f (mkEntry f now) _ hlk]
      simp [mkEntry]
  refine ⟨hkey, ?_, ?_⟩
  · rw [runScan_snd]
    rw [List.filter_eq_nil_iff]
    intro fi hfi
    simp [classify, hkey fi hfi]
  · have hscan2 : (runScan false (runSync false false netOk now m r).1 r).2 = [] := by
      rw [runScan_snd]
      rw [List.filter_eq_nil_iff]
      intro fi hfi
      simp [classify, hkey fi hfi]
    have hs2 :
        runSync false false netOk2 now2 (runSync false false netOk now m r).1 r
          = syncFiles false netOk2 now2
              (runScan false (runSync false false netOk now m r).1 r).2
              (runSync false false netOk now m r).1
              (runScan false (runSync false false netOk now m r).1 r).1 := rfl
    rw [hs2, syncFiles_filesDownloaded, hscan2, runScan_filesDownloaded]
    simp

/-- C6: during the sync phase, a failed download appends the file's error
to the run's error list and leaves the pre-existing manifest entry for
its relative path unchanged; only a successful download creates or
replaces the entry, with size, lastModifiedTime and syncedAt taken from
the current run.  Paths on the to-sync list are distinct, per the spec's
RemoteEntry invariant. -/
theorem C6_failed_download_preserves_entry (dryRun : Bool) (netOk : FileInfo → Bool)
    (now : Str) (L : List FileInfo) (m : Manifest) (stats : SyncStats)
    (hnodup : (L.map (fun f => f.relativePath)).Nodup) :
    (∀ f ∈ L, downloadFileResult dryRun (netOk f) = false →
      dlErr f ∈ (syncFiles dryRun netOk now L m stats).2.errors
      ∧ lookupAL (syncFiles dryRun netOk now L m stats).1.files f.relativePath
          = lookupAL m.files f.relativePath)
    ∧ (∀ f ∈ L, downloadFileResult dryRun (netOk f) = true →
      lookupAL (syncFiles dryRun netOk now L m stats).1.files f.relativePath
        = some (mkEntry f now)) := by
  have hinj : ∀ x ∈ L, ∀ y ∈ L, x.relativePath = y.relativePath → x = y := by
    intro x hx y hy hxy
    exact List.inj_on_of_nodup_map hnodup hx hy hxy
  constructor
  · intro f hf hfail
    constructor
    · rw [syncFiles_errors, List.mem_append]
      refine Or.inr (List.mem_map.mpr ⟨f, ?_, rfl⟩)
      rw [List.mem_filter]
      exact ⟨hf, by simp [hfail]⟩
    · rw [syncFiles_lookup]
      refine foldl_entry_none dryRun netOk now f.relativePath L _ ?_
      rintro g hg ⟨hgok, hgp⟩
      have : g = f := hinj g hg f hf hgp
      subst this
      rw [hgok] at hfail
      cases hfail
  · intro f hf hsucc
    rw [syncFiles_lookup]
    refine foldl_entry_mem dryRun netOk now f.relativePath f L _ hf ⟨hsucc, rfl⟩ ?_
    rintro g hg ⟨-, hgp⟩
    rw [hinj g hg f hf hgp]

/-- C8: with the full-sync flag set, every discovered non-folder file is
classified `new` and placed on the to-sync list regardless of the
manifest, and no manifest entry is ever deleted: any path present in the
manifest before the run is still present in the finalized manifest. -/
theorem C8_full_sync_redownloads_all (netOk : FileInfo → Bool) (now nowIso : Str)
    (m : Manifest) (r : Remote) (p : Str) :
    (runScan true m r).2 = filesOf r
    ∧ (runScan true m r).1.filesNew = (filesOf r).length
    ∧ ((lookupAL m.files p).isSome = true →
        (lookupAL (finalizeManifest true nowIso
            (runSync false true netOk now m r).1).files p).isSome = true) := by
  refine ⟨?_, ?_, ?_⟩
  · rw [runScan_snd]
    simp [classify]
  · rw [runScan_filesNew]
    simp [countC, classify]
  · intro h
    rw [finalizeManifest_files]
    have hs : runSync false true netOk now m r
        = syncFiles false netOk now (runScan true m r).2 m (runScan true m r).1 := rfl
    rw [hs, syncFiles_lookup]
    exact foldl_entry_isSome false netOk now p _ _ h

/-- C9: the produced Digest header carries a `response` field equal to
MD5(HA1:nonce:nc:cnonce:auth:HA2) with HA1 = MD5(username:realm:password),
HA2 = MD5(method:uri) and the fixed nonce-count `00000001`, and it carries
the `username`, `realm`, `nonce`, `uri`, `qop=auth`, `nc`, `cnonce` and
`response` fields. -/
theorem C9_digest_header (md5 : Str → Str) (password cnonce realm nonce uri method : Str) :
    List.IsInfix
      (str "response=\""
        ++ md5 (md5 (CONFIG_username ++ str ":" ++ realm ++ str ":" ++ password)
            ++ str ":" ++ nonce ++ str ":" ++ str "00000001" ++ str ":" ++ cnonce
            ++ str ":auth:" ++ md5 (method ++ str ":" ++ uri))
        ++ str "\"")
      (createDigestAuth md5 password cnonce realm nonce uri method)
    ∧ List.IsInfix (str "username=\"" ++ CONFIG_username ++ str "\"")
        (createDigestAuth md5 password cnonce realm nonce uri method)
    ∧ List.IsInfix (str "realm=\"" ++ realm ++ str "\"")
        (createDigestAuth md5 password cnonce realm nonce uri method)
    ∧ List.IsInfix (str "nonce=\"" ++ nonce ++ str "\"")
        (createDigestAuth md5 password cnonce realm nonce uri method)
    ∧ List.IsInfix (str "uri=\"" ++ uri ++ str "\"")
        (createDigestAuth md5 password cnonce realm nonce uri method)
    ∧ List.IsInfix (str "qop=auth")
        (createDigestAuth md5 password cnonce realm nonce uri method)
    ∧ List.IsInfix (str "nc=00000001")
        (createDigestAuth md5 password cnonce realm nonce uri method)
    ∧ List.IsInfix (str "cnonce=\"" ++ cnonce ++ str "\"")
        (createDigestAuth md5 password cnonce realm nonce uri method) := by
  have h1 : str "Digest username=\"" = str "Digest " ++ str "username=\"" := rfl
  have h2 : str "\", realm=\"" = str "\"" ++ str ", " ++ str "realm=\"" := rfl
  have h3 : str "\", nonce=\"" = str "\"" ++ str ", " ++ str "nonce=\"" := rfl
  have h4 : str "\", uri=\"" = str "\"" ++ str ", " ++ str "uri=\"" := rfl
  have h5 : str "\", qop=auth, nc=" = str "\"" ++ str ", " ++ str "qop=auth" ++ str ", " ++ str "nc=" := rfl
  have h6 : str ", cnonce=\"" = str ", " ++ str "cnonce=\"" := rfl
  have h7 : str "\", response=\"" = str "\"" ++ str ", " ++ str "response=\"" := rfl
  have h8 : str "nc=00000001" = str "nc=" ++ str "00000001" := rfl
  have hform : createDigestAuth md5 password cnonce realm nonce uri method
      = str "Digest "
        ++ (str "username=\"" ++ CONFIG_username ++ str "\"") ++ str ", "
        ++ (str "realm=\"" ++ realm ++ str "\"") ++ str ", "
        ++ (str "nonce=\"" ++ nonce ++ str "\"") ++ str ", "
        ++ (str "uri=\"" ++ uri ++ str "\"") ++ str ", "
        ++ str "qop=auth" ++ str ", "
        ++ (str "nc=" ++ str "00000001") ++ str ", "
        ++ (str "cnonce=\"" ++ cnonce ++ str "\"") ++ str ", "
        ++ (str "response=\""
            ++ md5 (md5 (CONFIG_username ++ str ":" ++ realm ++ str ":" ++ password)
                ++ str ":" ++ nonce ++ str ":" ++ str "00000001" ++ str ":" ++ cnonce
                ++ str ":auth:" ++ md5 (method ++ str ":" ++ uri))
            ++ str "\"") := by
    unfold createDigestAuth
    rw [h1, h2, h3, h4, h5, h6, h7]
    simp [List.append_assoc]
  rw [hform, h8]
  set d := str "Digest " with hd
  set c := str ", " with hc
  set U := str "username=\"" ++ CONFIG_username ++ str "\"" with hU
  set R := str "realm=\"" ++ realm ++ str "\"" with hR
  set N := str "nonce=\"" ++ nonce ++ str "\"" with hN
  set I := str "uri=\"" ++ uri ++ str "\"" with hI
  set Q := str "qop=auth" with hQ
  set NC := str "nc=" ++ str "00000001" with hNC
  set CN := str "cnonce=\"" ++ cnonce ++ str "\"" with hCN
  set RS := str "response=\""
      ++ md5 (md5 (CONFIG_username ++ str ":" ++ realm ++ str ":" ++ password)
          ++ str ":" ++ nonce ++ str ":" ++ str "00000001" ++ str ":" ++ cnonce
          ++ str ":auth:" ++ md5 (method ++ str ":" ++ uri))
      ++ str "\"" with hRS
  refine ⟨⟨d ++ U ++ c ++ R ++ c ++ N ++ c ++ I ++ c ++ Q ++ c ++ NC ++ c ++ CN ++ c, [],
      by simp [List.append_assoc]⟩,
    ⟨d, c ++ R ++ c ++ N ++ c ++ I ++ c ++ Q ++ c ++ NC ++ c ++ CN ++ c ++ RS,
      by simp [List.append_assoc]⟩,
    ⟨d ++ U ++ c, c ++ N ++ c ++ I ++ c ++ Q ++ c ++ NC ++ c ++ CN ++ c ++ RS,
      by simp [List.append_assoc]⟩,
    ⟨d ++ U ++ c ++ R ++ c, c ++ I ++ c ++ Q ++ c ++ NC ++ c ++ CN ++ c ++ RS,
      by simp [List.append_assoc]⟩,
    ⟨d ++ U ++ c ++ R ++ c ++ N ++ c, c ++ Q ++ c ++ NC ++ c ++ CN ++ c ++ RS,
      by simp [List.append_assoc]⟩,
    ⟨d ++ U ++ c ++ R ++ c ++ N ++ c ++ I ++ c, c ++ NC ++ c ++ CN ++ c ++ RS,
      by simp [List.append_assoc]⟩,
    ⟨d ++ U ++ c ++ R ++ c ++ N ++ c ++ I ++ c ++ Q ++ c, c ++ CN ++ c ++ RS,
      by simp [List.append_assoc]⟩,
    ⟨d ++ U ++ c ++ R ++ c ++ N ++ c ++ I ++ c ++ Q ++ c ++ NC ++ c, c ++ RS,
      by simp [List.append_assoc]⟩⟩


/-- Models `new Date(s).getTime()` when no parse result matters. -/
def pdZero : Str → Int := fun _ => 0

/-- A multi-status body whose href is doubly percent-encoded: its
once-decoded relative path is `a%40b`, its stored relativePath `a@b`. -/
def c3xml : Str := str "<d:response><d:href>https://sbnewcomers.org/resources/a%2540b/</d:href></d:response>"

/-- The single response block of `c3xml`. -/
def c3block : Str := str "<d:href>https://sbnewcomers.org/resources/a%2540b/</d:href></d:response>"

/-- The raw href inside `c3block`. -/
def c3raw : Str := str "https://sbnewcomers.org/resources/a%2540b/"

/-- The entry the parser produces for `c3block`. -/
def wAtFi : FileInfo :=
  { href := str "https://sbnewcomers.org/resources/a%40b/"
    name := str "a%40b"
    relativePath := str "a@b"
    size := 0
    isFolder := false
    lastModified := []
    lastModifiedTime := 0 }

/-- C3, counterexample: listing the folder whose path is `a@b` over
`c3xml` returns an entry whose `relativePath` equals the listed folder's
path — the self-reference exclusion fails on doubly-encoded hrefs, so
the claim is false as stated. -/
theorem C3_counterexample :
    (parseMultistatus pdZero c3xml (str "a@b")).map (fun fi => fi.relativePath)
      = [str "a@b"] := by decide

/-- C3, amended: every returned entry comes from a block whose
once-decoded relative path (the value actually compared) differs from
the listed folder's path, and its stored `relativePath` is the decode of
that value; an entry whose stored `relativePath` equals the folder path
can only arise when the once-decoded path still contains a decodable
percent-escape. -/
theorem C3_self_reference_excluded_once_decoded (pd : Str → Int) (xml cur : Str)
    (fi : FileInfo) (hfi : fi ∈ parseMultistatus pd xml cur) :
    ∃ block ∈ blocksOf xml, ∃ raw,
      hrefTagOf block = some raw
      ∧ onceDecodedRel raw ≠ cur
      ∧ fi.relativePath = percentDecode (onceDecodedRel raw)
      ∧ (fi.relativePath = cur → hasDecodableEscape (onceDecodedRel raw) = true) := by
  unfold parseMultistatus at hfi
  obtain ⟨block, hb, hpb⟩ := List.mem_filterMap.mp hfi
  obtain ⟨raw, hhref, hne, hrel⟩ := parseBlock_spec pd cur block fi hpb
  refine ⟨block, hb, raw, hhref, hne, hrel, ?_⟩
  intro hcur
  by_contra hesc
  rw [Bool.not_eq_true] at hesc
  have hid := percentDecode_of_no_escape _ hesc
  rw [hid] at hrel
  exact hne (hrel.symm.trans hcur)

/-- C3, witness for the amended theorem at a concrete listing. -/
theorem C3_amended_witness :
    ∃ block ∈ blocksOf c3xml, ∃ raw,
      hrefTagOf block = some raw
      ∧ onceDecodedRel raw ≠ str "q"
      ∧ wAtFi.relativePath = percentDecode (onceDecodedRel raw)
      ∧ (wAtFi.relativePath = str "q" → hasDecodableEscape (onceDecodedRel raw) = true) :=
  C3_self_reference_excluded_once_decoded pdZero c3xml (str "q") wAtFi (by decide)

/-- C10: the stored `relativePath` is the percent-decode of the
once-decoded, prefix-stripped path, while the self-reference comparison
used that once-decoded path itself; when the once-decoded path still
contains a decodable escape the two differ. -/
theorem C10_relativePath_decoded_twice (pd : Str → Int) (cur block raw : Str)
    (fi : FileInfo)
    (hhref : hrefTagOf block = some raw)
    (hparse : parseBlock pd cur block = some fi) :
    fi.relativePath = percentDecode (onceDecodedRel raw)
    ∧ onceDecodedRel raw ≠ cur
    ∧ (hasDecodableEscape (onceDecodedRel raw) = true →
        fi.relativePath ≠ onceDecodedRel raw) := by
  obtain ⟨raw2, hhref2, hne, hrel⟩ := parseBlock_spec pd cur block fi hparse
  rw [hhref, Option.some.injEq] at hhref2
  subst hhref2
  refine ⟨hrel, hne, ?_⟩
  intro hesc
  rw [hrel]
  exact percentDecode_ne_of_escape _ hesc

/-- C10, witness at the doubly-encoded block. -/
theorem C10_witness :
    wAtFi.relativePath = percentDecode (onceDecodedRel c3raw)
    ∧ onceDecodedRel c3raw ≠ str "self"
    ∧ wAtFi.relativePath ≠ onceDecodedRel c3raw := by
  have h := C10_relativePath_decoded_twice pdZero (str "self") c3block c3raw wAtFi
    (by decide) (by decide)
  exact ⟨h.1, h.2.1, h.2.2 (by decide)⟩

/-- A 401 response whose challenge carries a realm but no nonce. -/
def wNoNonce401 : HttpResponse :=
  { statusCode := 401, wwwAuthenticate := str "Digest realm=\"wa\"", body := [] }

/-- A placeholder for the authenticated retry's response (never reached
in the C4 scenario). -/
def wDummyResp : HttpResponse := { statusCode := 0, wwwAuthenticate := [], body := [] }

/-- C4: on a 401 whose challenge lacks a parsable nonce, `propfind` falls
through the `if (realmMatch && nonceMatch)` with no else branch, so its
promise settles neither way — the run neither fails with an
authentication error nor aborts, contradicting the claim (the download
path, by contrast, does resolve `false` immediately without retry). -/
theorem C4_unparsable_challenge_never_settles :
    propfindOutcome pdZero [] wNoNonce401 wDummyResp = ReqOutcome.pending
    ∧ download401Step (fun s => s) (str "pw") (str "cn") (str "/resources/") wNoNonce401
        = DlStep.resolveFalse := by decide

/-- A non-401, non-207 first response. -/
def wResp500 : HttpResponse := { statusCode := 500, wwwAuthenticate := [], body := [] }

/-- C7, counterexample: a 500 first response — a final status other than
207 — makes `propfind` resolve with the (empty) parsed entry list of the
error body instead of an error carrying the status code, so the claim is
false as stated. -/
theorem C7_counterexample :
    propfindOutcome pdZero [] wResp500 wDummyResp = ReqOutcome.resolved [] := by decide

/-- C7, amended: only the authenticated retry's status is checked — after
a 401 with parsable challenge, a 207 retry status resolves with the
parsed entries and any other retry status rejects with the HTTP status
code; a non-401 first response resolves with the parse of its body
regardless of its status. -/
theorem C7_only_retry_status_checked (pd : Str → Int) (folderPath : Str)
    (first authed : HttpResponse) :
    (first.statusCode ≠ 401 →
      propfindOutcome pd folderPath first authed
        = ReqOutcome.resolved (parseMultistatus pd first.body folderPath))
    ∧ (first.statusCode = 401 →
        ∀ realm nonce, realmOf first.wwwAuthenticate = some realm →
          nonceOf first.wwwAuthenticate = some nonce →
          (authed.statusCode = 207 →
            propfindOutcome pd folderPath first authed
              = ReqOutcome.resolved (parseMultistatus pd authed.body folderPath))
          ∧ (authed.statusCode ≠ 207 →
            propfindOutcome pd folderPath first authed
              = ReqOutcome.rejected (httpErrMsg authed.statusCode))) := by
  constructor
  · intro h
    unfold propfindOutcome
    rw [if_neg h]
  · intro h realm nonce hr hn
    constructor
    · intro h207
      unfold propfindOutcome
      rw [if_pos h, hr, hn]
      simp only [if_pos h207]
    · intro h207
      unfold propfindOutcome
      rw [if_pos h, hr, hn]
      simp only [if_neg h207]

/-- A 401 response carrying a parsable digest challenge. -/
def w401Digest : HttpResponse :=
  { statusCode := 401
    wwwAuthenticate := str "Digest realm=\"wa\", nonce=\"abc123\", qop=\"auth\""
    body := [] }

/-- A 403 retry response. -/
def wResp403 : HttpResponse := { statusCode := 403, wwwAuthenticate := [], body := [] }

/-- C7, witness: the amended behaviour at concrete responses. -/
theorem C7_witness :
    propfindOutcome pdZero [] wResp500 wDummyResp
        = ReqOutcome.resolved (parseMultistatus pdZero wResp500.body [])
    ∧ propfindOutcome pdZero [] w401Digest wResp403
        = ReqOutcome.rejected (httpErrMsg 403) := by
  constructor
  · exact (C7_only_retry_status_checked pdZero [] wResp500 wDummyResp).1 (by decide)
  · exact ((C7_only_retry_status_checked pdZero [] w401Digest wResp403).2 (by decide)
      (str "wa") (str "abc123") (by decide) (by decide)).2 (by decide)

/-- The empty manifest (`loadManifest`'s fresh structure, lines 311-317). -/
def wEmptyManifest : Manifest :=
  { lastFullSync := [], lastIncrementalSync := [], totalFiles := 0, totalSize := 0, files := [] }

/-- C5, counterexample: even a dry run appends to the log file (the very
first `log` call of `main`, line 506, is unconditional), so a file on
disk is created or modified and the claim is false as stated. -/
theorem C5_counterexample :
    FsEvent.appendLog ∈ mainEvents true false true false (fun _ => true) (fun _ => [])
      wEmptyManifest Remote.nil := by decide

/-- C5, amended: in dry-run mode the manifest is never rewritten, no
report and no download destination is written and no download directory
is created; the only filesystem writes are appends to the log file and,
when it is missing, creation of the backup root directory. -/
theorem C5_dry_run_only_log_writes (fullSync backupDirExists loadWarned : Bool)
    (netOk : FileInfo → Bool) (netEvents : FileInfo → List FsEvent)
    (m : Manifest) (r : Remote) (e : FsEvent)
    (he : e ∈ mainEvents true fullSync backupDirExists loadWarned netOk netEvents m r) :
    e = FsEvent.appendLog ∨ e = FsEvent.mkdirBackupRoot := by
  have hsync : ∀ L, syncFilesEvents true netOk netEvents L = [] := by
    intro L
    induction L with
    | nil => rfl
    | cons f rest ih => simp [syncFilesEvents, downloadFileResult, ih]
  unfold mainEvents at he
  rw [hsync] at he
  by_cases hb : backupDirExists <;> by_cases hl : loadWarned <;>
    simp only [hb, hl, saveManifestEvents, if_true, if_false, List.append_nil,
      List.nil_append, List.mem_append, List.mem_cons, List.mem_singleton,
      List.mem_map, List.not_mem_nil, or_false, false_or] at he <;>
    aesop

/-- C5, witness: the amended theorem applied to the first write of a
concrete dry run. -/
theorem C5_amended_witness :
    FsEvent.appendLog = FsEvent.appendLog ∨ FsEvent.appendLog = FsEvent.mkdirBackupRoot :=
  C5_dry_run_only_log_writes false true false (fun _ => true) (fun _ => [])
    wEmptyManifest Remote.nil FsEvent.appendLog (by decide)

/-- A concrete remote file. -/
def wFile : FileInfo :=
  { href := str "https://sbnewcomers.org/resources/Documents/Policy.pdf"
    name := str "Policy.pdf"
    relativePath := str "Documents/Policy.pdf"
    size := 1024
    isFolder := false
    lastModified := str "Wed, 01 Jan 2025 00:00:00 GMT"
    lastModifiedTime := 1735689600000 }

/-- A one-file remote tree. -/
def wRemote : Remote := .cons wFile .nil .nil

/-- C1, witness: the classification applied to a concrete file that is
absent from the manifest. -/
theorem C1_witness : needsSync wFile wEmptyManifest ≠ SyncStatus.unchanged :=
  (C1_needsSync_classification wFile wEmptyManifest wRemote).2.2.2.2 wFile (by decide)

/-- C2, witness: two consecutive concrete incremental runs, the second
downloading nothing. -/
theorem C2_witness :
    (runSync false false (fun _ => true) (str "t2")
      (runSync false false (fun _ => true) (str "t1") wEmptyManifest wRemote).1
      wRemote).2.filesDownloaded = 0 :=
  (C2_second_run_idempotent wRemote wEmptyManifest (fun _ => true) (fun _ => true)
    (str "t1") (str "t2") (by decide) (by decide)).2.2

/-- A file whose download succeeds in the C6 witness run. -/
def wOkFile : FileInfo :=
  { href := str "https://sbnewcomers.org/resources/ok.txt"
    name := str "ok.txt"
    relativePath := str "ok.txt"
    size := 1
    isFolder := false
    lastModified := []
    lastModifiedTime := 0 }

/-- A file whose download fails in the C6 witness run. -/
def wBadFile : FileInfo :=
  { href := str "https://sbnewcomers.org/resources/bad.txt"
    name := str "bad.txt"
    relativePath := str "bad.txt"
    size := 2
    isFolder := false
    lastModified := []
    lastModifiedTime := 0 }

/-- C6, witness: a concrete sync in which one download fails and one
succeeds. -/
theorem C6_witness :
    dlErr wBadFile ∈ (syncFiles false (fun f => decide (f.size = 1)) (str "now")
      [wOkFile, wBadFile] wEmptyManifest initStats).2.errors
    ∧ lookupAL (syncFiles false (fun f => decide (f.size = 1)) (str "now")
        [wOkFile, wBadFile] wEmptyManifest initStats).1.files wBadFile.relativePath
      = lookupAL wEmptyManifest.files wBadFile.relativePath
    ∧ lookupAL (syncFiles false (fun f => decide (f.size = 1)) (str "now")
        [wOkFile, wBadFile] wEmptyManifest initStats).1.files wOkFile.relativePath
      = some (mkEntry wOkFile (str "now")) := by
  have h := C6_failed_download_preserves_entry false (fun f => decide (f.size = 1))
    (str "now") [wOkFile, wBadFile] wEmptyManifest initStats (by decide)
  have h1 := h.1 wBadFile (by decide) (by decide)
  have h2 := h.2 wOkFile (by decide) (by decide)
  exact ⟨h1.1, h1.2, h2⟩

/-- A manifest entry for a path no longer present remotely. -/
def wStaleEntry : ManifestEntry :=
  { relativePath := str "old.txt", size := 5, lastModified := [],
    lastModifiedTime := 0, syncedAt := [], hash := none }

/-- A manifest tracking only the stale path. -/
def wStaleManifest : Manifest :=
  { lastFullSync := [], lastIncrementalSync := [], totalFiles := 1, totalSize := 5,
    files := [(str "old.txt", wStaleEntry)] }

/-- C8, witness: a concrete full sync leaves the stale manifest entry in
the finalized manifest. -/
theorem C8_witness :
    (lookupAL (finalizeManifest true (str "iso")
      (runSync false true (fun _ => true) (str "now") wStaleManifest wRemote).1).files
      (str "old.txt")).isSome = true :=
  (C8_full_sync_redownloads_all (fun _ => true) (str "now") (str "iso")
    wStaleManifest wRemote (str "old.txt")).2.2 (by decide)
